import Mathlib

/-!
# Verification of the caching subsystem of midbel/fetch (src/cache.go)

A shallow embedding of the three cache backends of `cache.go`:

* `filecache` — the filesystem backend: a mutex-guarded in-memory index
  (`map[uint32]*item`, keyed by the adler32 checksum of the URL string),
  files on disk, and a background capacity janitor (`clean`);
* `boltcache` — the embedded bbolt backend: three buckets (`time`, `data`,
  `type`) keyed by a hash of the URL string, one transaction per operation;
* `noopcache` — the always-miss pass-through backend.

Modelling conventions:

* Go byte strings (URLs, payloads) are `List Nat`; content types and
  directory names stay Lean `String`s.
* `time.Time` is a `Nat` tick; `time.Duration` is an `Int` (so `ttl <= 0`
  is representable exactly as in Go); `time.Since(t) = now - t` computed
  in `Int`.
* A `DoFunc` consumer (`func(string, io.Reader) error`) is characterised by
  how many bytes it reads from the reader and whether it returns an error,
  both deterministic functions of the content type and the readable stream.
  `io.TeeReader` semantics: the sink receives exactly the bytes the
  consumer read, i.e. `stream.take consumed`.
* The OS filesystem is an association list from paths to contents; bolt
  buckets are association lists. Fallible OS/engine calls that depend on
  the outside world (`os.MkdirAll`, `os.Create`, a failing bolt `Update`)
  are driven by explicit error oracles passed as arguments.
* Mutex discipline is recorded as an event trace (`Ev`) emitted in the
  source order of the Go statements.
-/

namespace Fetch

/-- Go byte strings and payloads. -/
abbrev Bytes := List Nat

/-- Events recorded by the filesystem backend, in Go statement order:
mutex acquire/release, index operations, and blocking file I/O. -/
inductive Ev where
  | lock
  | unlock
  | mkdir
  | create
  | consume
  | idxRead
  | idxWrite
  | idxDel
  | fopen
  deriving DecidableEq, Repr

/-- Blocking file-I/O events (directory creation, file creation, the tee
stream through the consumer, file open). -/
def Ev.isDisk : Ev → Bool
  | .mkdir => true
  | .create => true
  | .consume => true
  | .fopen => true
  | _ => false

/-- `diskUnderLock held tr = true` iff some file-I/O event of `tr` happens
while the mutex is held (scanning with current lock state `held`). -/
def diskUnderLock : Bool → List Ev → Bool
  | _, [] => false
  | _, Ev.lock :: rest => diskUnderLock true rest
  | _, Ev.unlock :: rest => diskUnderLock false rest
  | held, e :: rest => (held && e.isDisk) || diskUnderLock held rest

/-- An on-disk path, as produced by `filecache.prepare`: the cache root
joined with the host directory and a filename derived from the URL.
The filename is `fmt.Sprintf("%16x", xxh.Sum64(url))` in the source; the
external `xxh` hash is not part of this repository, so the path keeps the
URL itself as the (deterministic, stable) filename component. -/
structure Path where
  dir : String
  host : Bytes
  url : Bytes
  deriving DecidableEq, Repr

/-- Errors a cache operation can return: the two sentinel errors
`errMissing` and `errExpired`, an opaque consumer error (`code` keeps the
identity of the Go error value), a file-open `*PathError`, and an opaque
OS/engine error. -/
inductive Err where
  | missing
  | expired
  | consumer (code : Nat)
  | openf (p : Path)
  | sys (code : Nat)
  deriving DecidableEq, Repr

/-- A `DoFunc` consumer: given the content type and the readable stream it
reads `consumed ct s` bytes and returns `result ct s`
(`none` = nil error, `some code` = the consumer's error). -/
structure Consumer where
  consumed : String → Bytes → Nat
  result : String → Bytes → Option Nat

/-- The bytes a consumer actually reads from a stream; by `io.TeeReader`
semantics these are exactly the bytes copied to the tee sink. -/
def Consumer.observed (c : Consumer) (ct : String) (s : Bytes) : Bytes :=
  s.take (c.consumed ct s)

section Assoc

variable {α : Type} {β : Type} [DecidableEq α]

/-- Lookup in an association list (a Go map / bolt bucket `Get`). -/
def assocFind : List (α × β) → α → Option β
  | [], _ => none
  | (k, v) :: rest, a => if k = a then some v else assocFind rest a

/-- Insert/overwrite in an association list (a Go map write / bolt `Put`). -/
def assocPut : List (α × β) → α → β → List (α × β)
  | [], a, b => [(a, b)]
  | (k, v) :: rest, a, b =>
      if k = a then (a, b) :: rest else (k, v) :: assocPut rest a b

/-- Delete from an association list (Go `delete(m, k)` / `os.Remove`). -/
def assocErase (m : List (α × β)) (a : α) : List (α × β) :=
  m.filter (fun kv => kv.1 ≠ a)

@[simp]
theorem assocFind_put_self (m : List (α × β)) (a : α) (b : β) :
    assocFind (assocPut m a b) a = some b := by
  induction m with
  | nil => simp [assocPut, assocFind]
  | cons kv rest ih =>
      by_cases h : kv.1 = a
      · simp [assocPut, h, assocFind]
      · simpa [assocPut, h, assocFind] using ih

@[simp]
theorem assocFind_put_other (m : List (α × β)) (a a' : α) (b : β)
    (h : a ≠ a') :
    assocFind (assocPut m a b) a' = assocFind m a' := by
  induction m with
  | nil => simp [assocPut, assocFind, h]
  | cons kv rest ih =>
      by_cases hk : kv.1 = a
      · simp [assocPut, hk, assocFind, h]
      · simp [assocPut, hk, assocFind]
        by_cases hk' : kv.1 = a'
        · simp [hk']
        · simpa [hk'] using ih

@[simp]
theorem assocFind_erase_self (m : List (α × β)) (a : α) :
    assocFind (assocErase m a) a = none := by
  induction m with
  | nil => simp [assocErase, assocFind]
  | cons kv rest ih =>
      by_cases h : kv.1 = a
      · simpa [assocErase, h, assocFind] using ih
      · simpa [assocErase, h, assocFind] using ih

theorem assocErase_length_lt (m : List (α × β)) (a : α) (b : β)
    (h : assocFind m a = some b) :
    (assocErase m a).length < m.length := by
  induction m with
  | nil => simp [assocFind] at h
  | cons kv rest ih =>
      by_cases hk : kv.1 = a
      · simp [assocErase, hk]
        exact Nat.lt_succ_of_le (List.length_filter_le _ _)
      · simp [assocFind, hk] at h
        simpa [assocErase, hk] using Nat.succ_lt_succ (ih h)

end Assoc

/-- The adler32 checksum (`hash/adler32`) used by `filecache.key`:
`a` starts at 1, `b` at 0, both accumulated mod 65521; the checksum is
`b*65536 + a`. Bytes are taken mod 256. -/
def adler32 (s : Bytes) : Nat :=
  let f := s.foldl
    (fun (p : Nat × Nat) c =>
      ((p.1 + c % 256) % 65521, (p.2 + (p.1 + c % 256) % 65521) % 65521))
    (1, 0)
  f.2 * 65536 + f.1

/-- One entry of the filesystem backend's in-memory index
(`item{when, file, dtype}`). -/
structure Item where
  when : Nat
  file : Path
  dtype : String
  deriving DecidableEq, Repr

/-- `item.isExpired`: `ttl <= 0 || time.Since(i.when) >= ttl`. -/
def Item.isExpired (i : Item) (ttl : Int) (now : Nat) : Bool :=
  decide (ttl ≤ 0) || decide (ttl ≤ (now : Int) - (i.when : Int))

/-- The filesystem backend's index: `map[uint32]*item`. -/
abbrev Items := List (Nat × Item)

/-- The OS filesystem: a map from paths to file contents. -/
abbrev FS := List (Path × Bytes)

/-- `item.get`: open the backing file; on open failure return the
`*PathError`; otherwise feed the consumer the content type and the file's
bytes and return the consumer's result. Also reports what the consumer was
fed (`none` = not invoked) and the I/O events. -/
def Item.get (i : Item) (cons : Consumer) (fs : FS) :
    Option Err × Option (String × Bytes) × List Ev :=
  match assocFind fs i.file with
  | none => (some (.openf i.file), none, [.fopen])
  | some content =>
      ((cons.result i.dtype content).map .consumer,
       some (i.dtype, content), [.fopen, .consume])

/-- Result of `filecache.Get`. -/
structure FGetOut where
  res : Option Err
  items : Items
  fed : Option (String × Bytes)
  tr : List Ev
  deriving Repr

/-- Result of the consumer returned by `filecache.Do`. -/
structure FDoOut where
  res : Option Err
  items : Items
  fs : FS
  tr : List Ev
  deriving Repr

/-- Error oracle for the OS calls of the filesystem write path:
`os.MkdirAll` (via `prepare`) and `os.Create`. `none` = success. -/
structure SysOracle where
  mkdirErr : Option Nat
  createErr : Option Nat
  deriving DecidableEq, Repr

/-- What a backend's `Do` returns: either the original consumer unchanged
(`ttl <= 0` / noop backend) or a caching wrapper closure capturing `a`. -/
inductive Wrap (α : Type) where
  | original
  | wrapped (a : α)
  deriving DecidableEq, Repr

/-- The locator handed to `Do`: `loc.String()` and `loc.Hostname()`. -/
structure Loc where
  str : Bytes
  host : Bytes
  deriving DecidableEq, Repr

namespace filecache

/-- `filecache.key`: the adler32 checksum of the string. -/
def key (s : Bytes) : Nat := adler32 s

/-- `filecache.prepare`: the on-disk path for a URL, under the cache root
and the host directory (the `os.MkdirAll` outcome is the oracle's). -/
def prepare (dir : String) (url host : Bytes) : Path := ⟨dir, host, url⟩

/-- `filecache.get`: under the mutex, look the key up in the index;
absent ⇒ `errMissing`; expired ⇒ delete the index entry and `errExpired`;
otherwise return the item. Returns the updated index and the event trace. -/
def get (ttl : Int) (now : Nat) (url : Bytes) (items : Items) :
    Except Err Item × Items × List Ev :=
  match assocFind items (key url) with
  | none => (.error .missing, items, [.lock, .idxRead, .unlock])
  | some i =>
      if i.isExpired ttl now then
        (.error .expired, assocErase items (key url),
         [.lock, .idxRead, .idxDel, .unlock])
      else
        (.ok i, items, [.lock, .idxRead, .unlock])

/-- `filecache.Get`: `ttl <= 0` ⇒ `errExpired` without touching anything;
otherwise `get` then, on success, `item.get` (after the mutex is
released). -/
def Get (ttl : Int) (now : Nat) (url : Bytes) (cons : Consumer)
    (items : Items) (fs : FS) : FGetOut :=
  if ttl ≤ 0 then ⟨some .expired, items, none, []⟩
  else
    match get ttl now url items with
    | (.error e, items', tr) => ⟨some e, items', none, tr⟩
    | (.ok i, items', tr) =>
        match Item.get i cons fs with
        | (r, fed, tr2) => ⟨r, items', fed, tr ++ tr2⟩

/-- `filecache.Do`: `ttl <= 0` ⇒ the original consumer unchanged;
otherwise the caching wrapper closure capturing the locator. -/
def Do (ttl : Int) (loc : Loc) : Wrap Loc :=
  if ttl ≤ 0 then .original else .wrapped loc

/-- The wrapper closure `filecache.Do` returns (its `ttl > 0` branch):
compute the key, take the mutex, `prepare` (MkdirAll), `os.Create`, run
the consumer over a tee of the stream into the file, and only on consumer
success insert `{now, file, ct}` into the index. The mutex is held (by
`defer`) until the closure returns. -/
def doWrap (dir : String) (loc : Loc) (cons : Consumer) (orc : SysOracle)
    (now : Nat) (ct : String) (stream : Bytes) (items : Items) (fs : FS) :
    FDoOut :=
  let file := prepare dir loc.str loc.host
  match orc.mkdirErr with
  | some e => ⟨some (.sys e), items, fs, [.lock, .mkdir, .unlock]⟩
  | none =>
      match orc.createErr with
      | some e =>
          ⟨some (.sys e), items, fs, [.lock, .mkdir, .create, .unlock]⟩
      | none =>
          let fs' := assocPut fs file (cons.observed ct stream)
          match cons.result ct stream with
          | none =>
              ⟨none, assocPut items (key loc.str) ⟨now, file, ct⟩, fs',
               [.lock, .mkdir, .create, .consume, .idxWrite, .unlock]⟩
          | some c =>
              ⟨some (.consumer c), items, fs',
               [.lock, .mkdir, .create, .consume, .unlock]⟩

/-- `filecache.clean`, the effect of one wake of the janitor at tick `now`
with wake interval `wait`: when `size <= 0` the janitor goroutine never
runs; when the index is smaller than the capacity it skips the sweep;
otherwise, under the mutex, it deletes every entry whose age is at least
`wait` from the index and removes its file from disk. -/
def clean (size wait : Int) (now : Nat) (items : Items) (fs : FS) :
    Items × FS :=
  if size ≤ 0 then (items, fs)
  else if (items.length : Int) < size then (items, fs)
  else
    let removed := items.filter
      (fun kv => decide (wait ≤ (now : Int) - (kv.2.when : Int)))
    let kept := items.filter
      (fun kv => decide ((now : Int) - (kv.2.when : Int) < wait))
    (kept, fs.filter (fun pf => removed.all (fun kv => kv.2.file ≠ pf.1)))

end filecache

namespace noopcache

/-- `noopcache.Get`: always `errMissing`, the consumer is never invoked. -/
def Get (_url : Bytes) (_cons : Consumer) :
    Option Err × Option (String × Bytes) :=
  (some .missing, none)

/-- `noopcache.Do`: returns the input consumer unchanged. -/
def Do (_loc : Loc) : Wrap Loc := .original

end noopcache

/-- The three buckets of the bolt backend (`data`, `type`, `time`), each a
keyed namespace of the engine file; `bk.Get` of an absent key is `nil`. -/
structure BoltStore where
  timeB : List (Bytes × Nat)
  dataB : List (Bytes × Bytes)
  typeB : List (Bytes × String)
  deriving DecidableEq, Repr

/-- The freshly created engine file after `CreateBucketIfNotExists` of the
three buckets: all empty. -/
def emptyStore : BoltStore := ⟨[], [], []⟩

namespace boltcache

/-- Modelled from the spec: `boltcache.key` is the big-endian 8-byte
encoding of `xxh.Sum64` of the string; the `xxh` hash lives in the
external `github.com/midbel/xxh` module, not in this repository. The spec
requires of the key hasher only that it is a stable deterministic function
of the input string, so the key is modelled as the input bytes
themselves. -/
def key (s : Bytes) : Bytes := s

/-- `boltcache.Close`: `db.Close()` then `os.Remove(cacheFile)` — the
on-disk file is gone afterwards. -/
def Close (_disk : Option BoltStore) : Option BoltStore := none

/-- `boltcache.get`: one `View` transaction; absent/unparsable timestamp ⇒
`errMissing`; stale ⇒ `errExpired`; otherwise feed the consumer the stored
content type and bytes (`nil` reads as empty) and return its result.
Also reports what the consumer was fed (`none` = not invoked). -/
def get (ttl : Int) (now : Nat) (url : Bytes) (cons : Consumer)
    (st : BoltStore) : Option Err × Option (String × Bytes) :=
  match assocFind st.timeB (key url) with
  | none => (some .missing, none)
  | some ts =>
      if ttl ≤ (now : Int) - (ts : Int) then (some .expired, none)
      else
        let vs := (assocFind st.dataB (key url)).getD []
        let ctv := (assocFind st.typeB (key url)).getD ""
        ((cons.result ctv vs).map .consumer, some (ctv, vs))

/-- `boltcache.Get`: `ttl <= 0` ⇒ `errMissing` without a transaction;
otherwise `get`. -/
def Get (ttl : Int) (now : Nat) (url : Bytes) (cons : Consumer)
    (st : BoltStore) : Option Err × Option (String × Bytes) :=
  if ttl ≤ 0 then (some .missing, none) else get ttl now url cons st

/-- `boltcache.Do`: `ttl <= 0` ⇒ the original consumer unchanged;
otherwise a wrapper closure capturing `loc.String()`. -/
def Do (ttl : Int) (loc : Loc) : Wrap Bytes :=
  if ttl ≤ 0 then .original else .wrapped loc.str

/-- `boltcache.do`, the body of the wrapper closure: run the consumer over
a tee of the stream into an in-memory buffer, then — unconditionally —
run one `Update` transaction putting timestamp, buffered bytes and content
type under the key (`txErr` is the engine's outcome; a failed transaction
rolls back atomically). Return the consumer's error if any, else the
transaction's. -/
def doWrite (url : Bytes) (cons : Consumer) (ct : String) (stream : Bytes)
    (now : Nat) (txErr : Option Nat) (st : BoltStore) :
    Option Err × BoltStore :=
  let errd := cons.result ct stream
  let buf := cons.observed ct stream
  let upd :=
    match txErr with
    | some e => (some (Err.sys e), st)
    | none =>
        (none,
         ⟨assocPut st.timeB (key url) now,
          assocPut st.dataB (key url) buf,
          assocPut st.typeB (key url) ct⟩)
  match errd with
  | some c => (some (.consumer c), upd.2)
  | none => (upd.1, upd.2)

end boltcache

/-- `BoltCache`: `os.Remove(cacheFile)` deletes any existing store file,
then `bolt.Open` creates a fresh one and an `Update` creates the three
buckets. Takes the current on-disk file (`none` = absent) and returns the
handle's store together with the new on-disk file. -/
def BoltCache (_disk : Option BoltStore) : BoltStore × Option BoltStore :=
  (emptyStore, some emptyStore)

/-- A consumer that reads the whole stream and returns no error. -/
def consAll : Consumer := ⟨fun _ s => s.length, fun _ _ => none⟩

/-- A consumer that reads two bytes and then fails with error 7. -/
def consFail7 : Consumer := ⟨fun _ _ => 2, fun _ _ => some 7⟩

/-! ## Claim theorems -/

/-- C8: For the null backend, for every key and every consumer, `Get`
returns the missing error and invokes nothing, and `Do` returns exactly
the consumer it was given, unchanged. -/
theorem claimC8_noop_backend (url : Bytes) (cons : Consumer) (loc : Loc) :
    noopcache.Get url cons = (some .missing, none) ∧
    noopcache.Do loc = .original :=
  ⟨rfl, rfl⟩

/-- C4: For every backend with TTL ≤ 0, for every key, consumer and
storage state, `Get` returns the expired (filesystem) or missing
(embedded, null) error without consulting storage — the filesystem trace
is empty and the result is the same for every index, filesystem and
engine state, and the consumer is never invoked — and `Do` returns the
original consumer unchanged, so no caching occurs. -/
theorem claimC4_ttl_disabled (ttl : Int) (h : ttl ≤ 0) (now : Nat)
    (url : Bytes) (cons : Consumer) (items : Items) (fs : FS)
    (st : BoltStore) (loc : Loc) :
    filecache.Get ttl now url cons items fs = ⟨some .expired, items, none, []⟩ ∧
    filecache.Do ttl loc = .original ∧
    boltcache.Get ttl now url cons st = (some .missing, none) ∧
    boltcache.Do ttl loc = .original ∧
    noopcache.Get url cons = (some .missing, none) ∧
    noopcache.Do loc = .original := by
  refine ⟨?_, ?_, ?_, ?_, rfl, rfl⟩ <;>
    simp [filecache.Get, filecache.Do, boltcache.Get, boltcache.Do, h]

/-- Witness for C4 at `ttl = 0`. -/
theorem claimC4_ttl_disabled_witness :
    (0 : Int) ≤ 0 ∧
    filecache.Get 0 3 [97] consAll [] [] = ⟨some .expired, [], none, []⟩ ∧
    boltcache.Get 0 3 [97] consAll emptyStore = (some .missing, none) ∧
    filecache.Do 0 ⟨[97], []⟩ = .original ∧
    boltcache.Do 0 ⟨[97], []⟩ = .original := by
  have h := claimC4_ttl_disabled 0 (by decide) 3 [97] consAll [] []
    emptyStore ⟨[97], []⟩
  exact ⟨by decide, h.1, h.2.2.1, h.2.1, h.2.2.2.1⟩

/-- C9: In the embedded backend's `Do`-wrapped write, a consumer error is
returned to the caller even when the subsequent store transaction also
fails (the transaction's error is discarded), and the storage error is
surfaced exactly when the consumer succeeded. -/
theorem claimC9_consumer_error_wins (url : Bytes) (cons : Consumer)
    (ct : String) (stream : Bytes) (now : Nat) (txErr : Option Nat)
    (st : BoltStore) :
    (∀ c, cons.result ct stream = some c →
      (boltcache.doWrite url cons ct stream now txErr st).1
        = some (.consumer c)) ∧
    (cons.result ct stream = none →
      (boltcache.doWrite url cons ct stream now txErr st).1
        = Option.map Err.sys txErr) := by
  constructor
  · intro c hc
    cases txErr <;> simp [boltcache.doWrite, hc]
  · intro hc
    cases txErr <;> simp [boltcache.doWrite, hc]

/-- Witness for C9: with a failing consumer (error 7) and a failing
transaction (engine error 3) the consumer's error is returned; with a
succeeding consumer the engine error surfaces. -/
theorem claimC9_consumer_error_wins_witness :
    consFail7.result "t" [5, 6, 9] = some 7 ∧
    (boltcache.doWrite [1] consFail7 "t" [5, 6, 9] 0 (some 3) emptyStore).1
      = some (.consumer 7) ∧
    consAll.result "t" [5, 6, 9] = none ∧
    (boltcache.doWrite [1] consAll "t" [5, 6, 9] 0 (some 3) emptyStore).1
      = some (.sys 3) := by
  refine ⟨rfl, ?_, rfl, ?_⟩
  · exact (claimC9_consumer_error_wins [1] consFail7 "t" [5, 6, 9] 0
      (some 3) emptyStore).1 7 rfl
  · have h := (claimC9_consumer_error_wins [1] consAll "t" [5, 6, 9] 0
      (some 3) emptyStore).2 rfl
    simpa using h

/-- C1 (failing input for the embedded backend): the consumer fails with
error 7 after reading two of the three bytes, the engine transaction
succeeds, and `boltcache.do` nevertheless commits the write: the
consumer's error is returned, yet the `time` bucket holds an entry for
the key and a subsequent `Get` in the resulting state finds the entry and
feeds a second consumer the partial two-byte payload instead of
returning missing. -/
theorem claimC1_bolt_commits_on_consumer_error :
    (boltcache.doWrite [1] consFail7 "text/plain" [5, 6, 9] 0 none
      emptyStore).1 = some (.consumer 7) ∧
    assocFind (boltcache.doWrite [1] consFail7 "text/plain" [5, 6, 9] 0 none
      emptyStore).2.timeB (boltcache.key [1]) = some 0 ∧
    boltcache.Get 10 1 [1] consAll
      (boltcache.doWrite [1] consFail7 "text/plain" [5, 6, 9] 0 none
        emptyStore).2
      = (none, some ("text/plain", [5, 6])) := by
  refine ⟨rfl, rfl, ?_⟩
  decide

/-- C2 (counterexample): write key `"q1"` (bytes `[113, 49]`) with body
`[1, 2, 3]` and content-type `"application/octet-stream"` successfully;
constructing a new engine handle (`BoltCache`) over the resulting on-disk
file removes that file and starts from an empty store, so `Get("q1", _)`
returns missing and feeds the consumer nothing — not the 3 bytes the
claim promises. -/
theorem claimC2_reopen_counterexample :
    (boltcache.doWrite [113, 49] consAll "application/octet-stream"
      [1, 2, 3] 0 none emptyStore).1 = none ∧
    boltcache.Get 10 1 [113, 49] consAll
      (BoltCache (some (boltcache.doWrite [113, 49] consAll
        "application/octet-stream" [1, 2, 3] 0 none emptyStore).2)).1
      = (some .missing, none) := by
  refine ⟨rfl, ?_⟩
  decide

/-- C2 (amended): entries do not survive a reopen. `BoltCache` removes
any existing store file at construction and starts from a fresh empty
store, so for every TTL, key and consumer, `Get` on the new handle
returns missing and invokes nothing; `boltcache.Close` also removes the
on-disk file. -/
theorem claimC2_reopen_amended (ttl : Int) (disk : Option BoltStore)
    (url : Bytes) (cons : Consumer) (now : Nat) :
    (BoltCache disk).1 = emptyStore ∧
    boltcache.Get ttl now url cons (BoltCache disk).1
      = (some .missing, none) ∧
    boltcache.Close disk = none := by
  refine ⟨rfl, ?_, rfl⟩
  by_cases h : ttl ≤ 0 <;>
    simp [boltcache.Get, boltcache.get, BoltCache, emptyStore, assocFind, h]


/-- C5: For the filesystem backend with TTL > 0, `Get` on a key whose
index entry exists but whose age (`now - createdAt`) is at least the TTL
returns the expired error, deletes the entry from the in-memory index
(the key no longer resolves, and the index shrinks, so it no longer
counts toward capacity), invokes no consumer, and every subsequent `Get`
for that key on the resulting index returns missing. -/
theorem claimC5_lazy_expiry (ttl : Int) (now : Nat) (url : Bytes)
    (cons : Consumer) (items : Items) (fs : FS) (it : Item)
    (httl : 0 < ttl)
    (hfind : assocFind items (filecache.key url) = some it)
    (hage : ttl ≤ (now : Int) - (it.when : Int)) :
    (filecache.Get ttl now url cons items fs).res = some .expired ∧
    (filecache.Get ttl now url cons items fs).items
      = assocErase items (filecache.key url) ∧
    (filecache.Get ttl now url cons items fs).fed = none ∧
    assocFind (filecache.Get ttl now url cons items fs).items
      (filecache.key url) = none ∧
    (filecache.Get ttl now url cons items fs).items.length
      < items.length ∧
    (∀ (now2 : Nat) (cons2 : Consumer) (fs2 : FS),
      (filecache.Get ttl now2 url cons2
        (filecache.Get ttl now url cons items fs).items fs2).res
        = some .missing) := by
  have hnle : ¬ ttl ≤ 0 := not_le.mpr httl
  have hexp : it.isExpired ttl now = true := by
    simp [Item.isExpired, hage]
  refine ⟨?_, ?_, ?_, ?_, ?_, ?_⟩
  · simp [filecache.Get, filecache.get, hnle, hfind, hexp]
  · simp [filecache.Get, filecache.get, hnle, hfind, hexp]
  · simp [filecache.Get, filecache.get, hnle, hfind, hexp]
  · simp [filecache.Get, filecache.get, hnle, hfind, hexp]
  · simp only [filecache.Get, filecache.get, hnle, hfind, hexp]
    simpa using assocErase_length_lt items (filecache.key url) it hfind
  · intro now2 cons2 fs2
    simp [filecache.Get, filecache.get, hnle, hfind, hexp,
      assocFind_erase_self]

/-- Witness for C5: `ttl = 5`, URL `[97]` (key 6422626), a single entry
created at tick 0, read at tick 5. -/
theorem claimC5_lazy_expiry_witness :
    (0 : Int) < 5 ∧
    assocFind [((6422626 : Nat), Item.mk 0 ⟨"d", [104], [97]⟩ "t")]
      (filecache.key [97]) = some (Item.mk 0 ⟨"d", [104], [97]⟩ "t") ∧
    (5 : Int) ≤ ((5 : Nat) : Int) - (((Item.mk 0 ⟨"d", [104], [97]⟩
      "t").when : Nat) : Int) ∧
    (filecache.Get 5 5 [97] consAll
      [((6422626 : Nat), Item.mk 0 ⟨"d", [104], [97]⟩ "t")] []).res
      = some .expired ∧
    (filecache.Get 5 5 [97] consAll
      [((6422626 : Nat), Item.mk 0 ⟨"d", [104], [97]⟩ "t")] []).items.length
      < 1 := by
  have h := claimC5_lazy_expiry 5 5 [97] consAll
    [((6422626 : Nat), Item.mk 0 ⟨"d", [104], [97]⟩ "t")] []
    (Item.mk 0 ⟨"d", [104], [97]⟩ "t") (by decide) (by decide) (by decide)
  exact ⟨by decide, by decide, by decide, h.1, h.2.2.2.2.1⟩

/-- C10: In the filesystem backend with TTL > 0, `Get` on a key whose
index entry is present and unexpired but whose backing file cannot be
opened returns the file-open error — neither missing nor expired — leaves
the index entry in place, and invokes no consumer, so a later `Get`
retries the same file. -/
theorem claimC10_open_failure (ttl : Int) (now : Nat) (url : Bytes)
    (cons : Consumer) (items : Items) (fs : FS) (it : Item)
    (httl : 0 < ttl)
    (hfind : assocFind items (filecache.key url) = some it)
    (hfresh : (now : Int) - (it.when : Int) < ttl)
    (hfile : assocFind fs it.file = none) :
    (filecache.Get ttl now url cons items fs).res = some (.openf it.file) ∧
    (filecache.Get ttl now url cons items fs).res ≠ some .missing ∧
    (filecache.Get ttl now url cons items fs).res ≠ some .expired ∧
    (filecache.Get ttl now url cons items fs).items = items ∧
    (filecache.Get ttl now url cons items fs).fed = none := by
  have hnle : ¬ ttl ≤ 0 := not_le.mpr httl
  have hexp : it.isExpired ttl now = false := by
    simp [Item.isExpired, hnle, not_le.mpr hfresh]
  refine ⟨?_, ?_, ?_, ?_, ?_⟩ <;>
    simp [filecache.Get, filecache.get, Item.get, hnle, hfind, hexp, hfile]

/-- Witness for C10: one fresh entry whose backing file is absent from
the filesystem. -/
theorem claimC10_open_failure_witness :
    (0 : Int) < 5 ∧
    assocFind [((6422626 : Nat), Item.mk 0 ⟨"d", [104], [97]⟩ "t")]
      (filecache.key [97]) = some (Item.mk 0 ⟨"d", [104], [97]⟩ "t") ∧
    ((1 : Nat) : Int) - (((Item.mk 0 ⟨"d", [104], [97]⟩ "t").when : Nat) :
      Int) < 5 ∧
    assocFind ([] : FS) (Item.mk 0 ⟨"d", [104], [97]⟩ "t").file = none ∧
    (filecache.Get 5 1 [97] consAll
      [((6422626 : Nat), Item.mk 0 ⟨"d", [104], [97]⟩ "t")] []).res
      = some (.openf ⟨"d", [104], [97]⟩) ∧
    (filecache.Get 5 1 [97] consAll
      [((6422626 : Nat), Item.mk 0 ⟨"d", [104], [97]⟩ "t")] []).items
      = [((6422626 : Nat), Item.mk 0 ⟨"d", [104], [97]⟩ "t")] := by
  have h := claimC10_open_failure 5 1 [97] consAll
    [((6422626 : Nat), Item.mk 0 ⟨"d", [104], [97]⟩ "t")] []
    (Item.mk 0 ⟨"d", [104], [97]⟩ "t") (by decide) (by decide) (by decide)
    (by decide)
  exact ⟨by decide, by decide, by decide, by decide, h.1, h.2.2.2.1⟩


/-- C3: For every key, any successful `Do`-wrapped write followed
immediately by a `Get` with the TTL not yet elapsed invokes the second
consumer with the same content-type string and a byte-identical payload
to the bytes the first consumer observed, for both the filesystem and the
embedded backend (the second consumer's own result is returned). -/
theorem claimC3_write_then_read (ttl : Int) (now1 now2 : Nat)
    (dir : String) (loc : Loc) (cons cons2 : Consumer) (ct : String)
    (stream : Bytes) (items : Items) (fs : FS) (st : BoltStore)
    (hmono : now1 ≤ now2)
    (hfresh : (now2 : Int) - (now1 : Int) < ttl)
    (hcons : cons.result ct stream = none) :
    (filecache.doWrap dir loc cons ⟨none, none⟩ now1 ct stream items
      fs).res = none ∧
    (filecache.Get ttl now2 loc.str cons2
      (filecache.doWrap dir loc cons ⟨none, none⟩ now1 ct stream items
        fs).items
      (filecache.doWrap dir loc cons ⟨none, none⟩ now1 ct stream items
        fs).fs).fed
      = some (ct, cons.observed ct stream) ∧
    (filecache.Get ttl now2 loc.str cons2
      (filecache.doWrap dir loc cons ⟨none, none⟩ now1 ct stream items
        fs).items
      (filecache.doWrap dir loc cons ⟨none, none⟩ now1 ct stream items
        fs).fs).res
      = Option.map Err.consumer (cons2.result ct (cons.observed ct stream)) ∧
    (boltcache.doWrite loc.str cons ct stream now1 none st).1 = none ∧
    boltcache.Get ttl now2 loc.str cons2
      (boltcache.doWrite loc.str cons ct stream now1 none st).2
      = (Option.map Err.consumer (cons2.result ct (cons.observed ct stream)),
         some (ct, cons.observed ct stream)) := by
  have httl : (0 : Int) < ttl := by
    have h0 : (0 : Int) ≤ (now2 : Int) - (now1 : Int) := by
      have : (now1 : Int) ≤ (now2 : Int) := by exact_mod_cast hmono
      omega
    exact lt_of_le_of_lt h0 hfresh
  have hnle : ¬ ttl ≤ 0 := not_le.mpr httl
  have hfr : ¬ ttl ≤ (now2 : Int) - (now1 : Int) := not_le.mpr hfresh
  refine ⟨?_, ?_, ?_, ?_, ?_⟩ <;>
    simp [filecache.doWrap, filecache.Get, filecache.get, Item.get,
      Item.isExpired, filecache.prepare, boltcache.doWrite, boltcache.Get,
      boltcache.get, hcons, hnle, hfr]

/-- Witness for C3 at a concrete write/read pair: TTL 10, write at tick
0, read at tick 1, body `[5, 6, 9]`, content type `"text/plain"`. -/
theorem claimC3_write_then_read_witness :
    (0 : Nat) ≤ 1 ∧
    ((1 : Nat) : Int) - ((0 : Nat) : Int) < 10 ∧
    consAll.result "text/plain" [5, 6, 9] = none ∧
    (filecache.Get 10 1 [97] consAll
      (filecache.doWrap "d" ⟨[97], [104]⟩ consAll ⟨none, none⟩ 0
        "text/plain" [5, 6, 9] [] []).items
      (filecache.doWrap "d" ⟨[97], [104]⟩ consAll ⟨none, none⟩ 0
        "text/plain" [5, 6, 9] [] []).fs).fed
      = some ("text/plain", consAll.observed "text/plain" [5, 6, 9]) ∧
    boltcache.Get 10 1 [97] consAll
      (boltcache.doWrite [97] consAll "text/plain" [5, 6, 9] 0 none
        emptyStore).2
      = (Option.map Err.consumer
          (consAll.result "text/plain" (consAll.observed "text/plain"
            [5, 6, 9])),
         some ("text/plain", consAll.observed "text/plain" [5, 6, 9])) := by
  have h := claimC3_write_then_read 10 0 1 "d" ⟨[97], [104]⟩ consAll
    consAll "text/plain" [5, 6, 9] [] [] emptyStore (by decide) (by decide)
    rfl
  exact ⟨by decide, by decide, rfl, h.2.1, h.2.2.2.2⟩

/-- C6: With a positive capacity bound, one wake of the filesystem
backend's janitor does nothing when the index size is below the bound;
otherwise it removes from the index exactly the entries whose age is at
least the wake interval — entries younger than the interval always
survive — and removes from disk exactly the files of the removed
entries. -/
theorem claimC6_janitor_sweep (size wait : Int) (now : Nat)
    (items : Items) (fs : FS) (hsize : 0 < size) :
    ((items.length : Int) < size →
      filecache.clean size wait now items fs = (items, fs)) ∧
    (size ≤ (items.length : Int) →
      ((∀ k it, (k, it) ∈ (filecache.clean size wait now items fs).1 ↔
          ((k, it) ∈ items ∧ (now : Int) - (it.when : Int) < wait)) ∧
       (∀ p bs, (p, bs) ∈ (filecache.clean size wait now items fs).2 ↔
          ((p, bs) ∈ fs ∧ ∀ k it, (k, it) ∈ items →
            wait ≤ (now : Int) - (it.when : Int) → it.file ≠ p)))) := by
  have hnle : ¬ size ≤ 0 := not_le.mpr hsize
  constructor
  · intro hlt
    simp [filecache.clean, hnle, hlt]
  · intro hge
    have hnlt : ¬ (items.length : Int) < size := not_lt.mpr hge
    constructor
    · intro k it
      simp [filecache.clean, hnle, hnlt, List.mem_filter]
    · intro p bs
      simp [filecache.clean, hnle, hnlt, List.mem_filter,
        List.all_eq_true]
      intro _hmem
      constructor
      · intro h2 k it hin hage
        rcases h2 k it hin with hlt | hne
        · exact absurd hage (not_le.mpr hlt)
        · exact hne
      · intro h2 a b hin
        by_cases hage : wait ≤ (now : Int) - (b.when : Int)
        · exact Or.inr (h2 a b hin hage)
        · exact Or.inl (not_le.mp hage)

/-- Witness for C6: capacity 1, wake interval 10, tick 12, two entries
created at ticks 0 and 5: the sweep runs (2 ≥ 1), the age-12 entry is
gone, the age-7 entry survives. -/
theorem claimC6_janitor_sweep_witness :
    (0 : Int) < 1 ∧
    (1 : Int) ≤ (([((1 : Nat), Item.mk 0 ⟨"d", [1], [1]⟩ "t"),
      ((2 : Nat), Item.mk 5 ⟨"d", [1], [2]⟩ "t")] : Items).length : Int) ∧
    (((2 : Nat), Item.mk 5 ⟨"d", [1], [2]⟩ "t") ∈
        (filecache.clean 1 10 12
          [((1 : Nat), Item.mk 0 ⟨"d", [1], [1]⟩ "t"),
           ((2 : Nat), Item.mk 5 ⟨"d", [1], [2]⟩ "t")]
          [(⟨"d", [1], [1]⟩, [9]), (⟨"d", [1], [2]⟩, [8])]).1 ↔
      ((((2 : Nat), Item.mk 5 ⟨"d", [1], [2]⟩ "t") ∈
          ([((1 : Nat), Item.mk 0 ⟨"d", [1], [1]⟩ "t"),
            ((2 : Nat), Item.mk 5 ⟨"d", [1], [2]⟩ "t")] : Items)) ∧
        ((12 : Nat) : Int) - (((Item.mk 5 ⟨"d", [1], [2]⟩ "t").when :
          Nat) : Int) < 10)) := by
  have h := claimC6_janitor_sweep 1 10 12
    [((1 : Nat), Item.mk 0 ⟨"d", [1], [1]⟩ "t"),
     ((2 : Nat), Item.mk 5 ⟨"d", [1], [2]⟩ "t")]
    [(⟨"d", [1], [1]⟩, [9]), (⟨"d", [1], [2]⟩, [8])] (by decide)
  exact ⟨by decide, by decide,
    (h.2 (by decide)).1 2 (Item.mk 5 ⟨"d", [1], [2]⟩ "t")⟩

/-- C7 (counterexample): at a concrete input the `Do`-wrapped write's
trace takes the mutex first and performs directory creation, file
creation and the whole consumer tee before releasing it — file I/O under
the lock, which the claim says never happens. -/
theorem claimC7_lock_counterexample :
    diskUnderLock false
      (filecache.doWrap "d" ⟨[97], [104]⟩ consAll ⟨none, none⟩ 0 "t" [5]
        [] []).tr = true ∧
    (filecache.doWrap "d" ⟨[97], [104]⟩ consAll ⟨none, none⟩ 0 "t" [5]
      [] []).tr
      = [.lock, .mkdir, .create, .consume, .idxWrite, .unlock] := by
  constructor
  · rfl
  · rfl

/-- C7 (amended): `Get` never performs file I/O while the mutex is held —
the lock is released before the file open and the consumer read — but the
`Do`-wrapped write holds the mutex across directory creation, file
creation and the entire consumer tee on every execution path. -/
theorem claimC7_lock_discipline (ttl : Int) (now : Nat) (url : Bytes)
    (cons : Consumer) (items : Items) (fs : FS) (dir : String) (loc : Loc)
    (orc : SysOracle) (ct : String) (stream : Bytes) :
    diskUnderLock false (filecache.Get ttl now url cons items fs).tr
      = false ∧
    diskUnderLock false
      (filecache.doWrap dir loc cons orc now ct stream items fs).tr
      = true := by
  constructor
  · by_cases h : ttl ≤ 0
    · simp [filecache.Get, h, diskUnderLock]
    · rcases hf : assocFind items (filecache.key url) with _ | i
      · simp [filecache.Get, filecache.get, h, hf]
        rfl
      · cases hie : i.isExpired ttl now
        · rcases hfs : assocFind fs i.file with _ | content
          · simp [filecache.Get, filecache.get, Item.get, h, hf, hie, hfs]
            rfl
          · simp [filecache.Get, filecache.get, Item.get, h, hf, hie, hfs]
            rfl
        · simp [filecache.Get, filecache.get, h, hf, hie]
          rfl
  · rcases orc with ⟨mk, cr⟩
    rcases mk with _ | e
    · rcases cr with _ | e
      · rcases hr : cons.result ct stream with _ | c
        · simp [filecache.doWrap, hr]
          rfl
        · simp [filecache.doWrap, hr]
          rfl
      · simp [filecache.doWrap]
        rfl
    · simp [filecache.doWrap]
      rfl

end Fetch
